import Mathlib

/-!
Verification of the radio-hal helpers module (src/src/helpers.rs): a shallow
embedding of the command executors (link test, echo, receive) and the pcap
capture-sink opening code, with theorems settling the specification claims.

Modelling conventions:
* Bytes are natural numbers below 256, byte buffers are lists of naturals.
* Machine integers: u32 indices are Nat, i16 RSSI values are Int in
  [-32768, 32768) encoded two's-complement big-endian where bytes matter.
* Rust panics (byteorder slice-length assertions, expect / unwrap, the
  explicit panic in the fifo path) are a `panicked` outcome, distinct from
  typed Err returns.
* The hardware is a deterministic oracle: the result of each radio call is a
  function of its position in the call sequence, so every executor is a pure
  function of the oracle and its options.
* The rolling-stats accumulators are modelled by the list of samples pushed
  into them; the claims only concern how many updates occur, and i16 to f32
  conversion is exact, so no floating point is needed.
-/

/-- Outcome of running a piece of Rust code that may panic: either a value or
a process-terminating panic with its message. -/
inductive PanicOr (α : Type) where
  | ok : α → PanicOr α
  | panicked : String → PanicOr α
deriving DecidableEq, Repr

/-- Map over the value of a possibly-panicking computation. -/
def PanicOr.map {α β : Type} (f : α → β) : PanicOr α → PanicOr β
  | .ok a => .ok (f a)
  | .panicked m => .panicked m

/-- Modelled from the spec: the blocking adapter's outcome classification
(spec section 3, OperationOutcome) for the `blocking` module, which is outside
the provided sources. A blocking call either completes, reports a device error
(`inner`, wrapping the radio error type), or exceeds its deadline (`timeout`),
matching the two-variant error the helpers match on. -/
inductive BlockingError (E : Type) where
  | inner : E → BlockingError E
  | timeout : BlockingError E
deriving DecidableEq, Repr

/-- Modelled from the spec: an opaque typed I/O error value as returned by the
capture-sink open path (std::io::Error carries an OS error code). -/
structure IoError where
  code : Nat
deriving DecidableEq, Repr

/-- Big-endian unsigned 32-bit read, as byteorder NetworkEndian::read_u32:
combines the first four bytes of the slice, and panics when the slice holds
fewer than four bytes. -/
def read_u32 (b : List Nat) : PanicOr Nat :=
  match b with
  | b0 :: b1 :: b2 :: b3 :: _ => .ok (((b0 * 256 + b1) * 256 + b2) * 256 + b3)
  | _ => .panicked "read_u32: slice shorter than 4 bytes"

/-- Big-endian signed 16-bit read, as byteorder NetworkEndian::read_i16:
combines the first two bytes of the slice two's-complement, and panics when
the slice holds fewer than two bytes. -/
def read_i16 (b : List Nat) : PanicOr Int :=
  match b with
  | b0 :: b1 :: _ =>
      let u := b0 * 256 + b1
      .ok (if u < 32768 then (u : Int) else (u : Int) - 65536)
  | _ => .panicked "read_i16: slice shorter than 2 bytes"

/-- Big-endian two's-complement byte pair for an i16 value, the bytes written
by byteorder NetworkEndian::write_i16. -/
def i16_bytes (v : Int) : List Nat :=
  let u := (v % 65536).toNat
  [u / 256, u % 256]

/-- Overwrite of a byte buffer starting at a given offset, as a Rust write
into the subslice starting there (valid when the values fit). -/
def writeAt (buff : List Nat) (off : Nat) (vals : List Nat) : List Nat :=
  buff.take off ++ vals ++ buff.drop (off + vals.length)

/-- Link-test summary structure LinkTestInfo from the source: requested and
received round counts plus the two rolling-stats accumulators, each modelled
by its pushed sample list. -/
structure LinkTestInfo where
  sent : Nat
  received : Nat
  local_rssi : List Int
  remote_rssi : List Int
deriving DecidableEq, Repr

/-- Options consumed by do_ping_pong (PingPongOptions in the source); the
blocking options configure the oracle-modelled blocking calls and carry no
further observable content. -/
structure PingPongOptions where
  rounds : Nat
  power : Option Int
  delay_us : Nat
  parse_info : Bool
deriving DecidableEq, Repr

/-- Deterministic hardware oracle for one link-test run: the outcome of the
power call, and of the blocking transmit and blocking receive of each round.
A successful receive yields the delivered bytes (the fill of the 32-byte
buffer prefix) together with the RSSI reported in the receive info. -/
structure PPOracle (E : Type) where
  set_power : Int → Except E Unit
  transmit : Nat → Except (BlockingError E) Unit
  receive : Nat → Except (BlockingError E) (List Nat × Int)

/-- Result of one iteration of the link-test round loop: proceed to the next
round (the flag records whether the end-of-body inter-round delay ran), or
return early with an error, or panic. -/
inductive StepResult (E : Type) where
  | next : LinkTestInfo → Bool → StepResult E
  | abort : BlockingError E → StepResult E
  | panicked : String → StepResult E
deriving DecidableEq, Repr

/-- One iteration of the round loop of do_ping_pong (source lines 439-490):
transmit the encoded index (any error returns), blocking-receive (timeout
skips the round via continue, other errors return), decode the echoed index
from the first four received bytes (byteorder panics below four), drop the
round on mismatch via continue, optionally decode the remote RSSI from bytes
four onward (byteorder panics below two available), then update received and
the accumulators and fall through to the inter-round delay. The two continue
paths skip that delay. -/
def ppStep {E : Type} (o : PPOracle E) (opts : PingPongOptions) (i : Nat)
    (st : LinkTestInfo) : StepResult E :=
  match o.transmit i with
  | .error e => .abort e
  | .ok _ =>
    match o.receive i with
    | .error .timeout => .next st false
    | .error e => .abort e
    | .ok (bytes, rssi) =>
      match read_u32 bytes with
      | .panicked m => .panicked m
      | .ok receive_index =>
        if receive_index ≠ i then .next st false
        else
          match (if opts.parse_info then (read_i16 (bytes.drop 4)).map some
                 else .ok none) with
          | .panicked m => .panicked m
          | .ok remote_rssi =>
            .next { st with
                    received := st.received + 1,
                    local_rssi := st.local_rssi ++ [rssi],
                    remote_rssi := st.remote_rssi ++
                      (match remote_rssi with
                       | some v => [v]
                       | none => []) } true

/-- Round loop of do_ping_pong: runs the remaining rounds starting at index i,
threading the summary state and a ghost count of inter-round delay calls. -/
def ppLoop {E : Type} (o : PPOracle E) (opts : PingPongOptions) :
    Nat → Nat → LinkTestInfo → Nat →
    PanicOr (Except (BlockingError E) (LinkTestInfo × Nat))
  | _, 0, st, d => .ok (.ok (st, d))
  | i, r + 1, st, d =>
    match ppStep o opts i st with
    | .abort e => .ok (.error e)
    | .panicked m => .panicked m
    | .next st' b => ppLoop o opts (i + 1) r st' (d + (if b then 1 else 0))

/-- Instrumented do_ping_pong: the summary is initialised with sent equal to
the requested round count, output power is applied first when given (a device
error returns at once), then the round loop runs; the ghost delay count is
kept alongside the returned summary. -/
def ppRun {E : Type} (o : PPOracle E) (opts : PingPongOptions) :
    PanicOr (Except (BlockingError E) (LinkTestInfo × Nat)) :=
  let init : LinkTestInfo :=
    { sent := opts.rounds, received := 0, local_rssi := [], remote_rssi := [] }
  match opts.power with
  | some p =>
    match o.set_power p with
    | .error e => .ok (.error (.inner e))
    | .ok _ => ppLoop o opts 0 opts.rounds init 0
  | none => ppLoop o opts 0 opts.rounds init 0

/-- Embedding of do_ping_pong (source lines 416-493): the run with the ghost
delay count projected away, returning Result of LinkTestInfo and BlockingError. -/
def do_ping_pong {E : Type} (o : PPOracle E) (opts : PingPongOptions) :
    PanicOr (Except (BlockingError E) LinkTestInfo) :=
  (ppRun o opts).map (fun r => r.map Prod.fst)

example : ppRun (E := Unit)
    { set_power := fun _ => .ok (), transmit := fun _ => .ok (),
      receive := fun i => .ok ([0, 0, 0, i], -40) }
    { rounds := 2, power := none, delay_us := 100, parse_info := false }
    = .ok (.ok ({ sent := 2, received := 2, local_rssi := [-40, -40],
                  remote_rssi := [] }, 2)) := rfl

example : ppRun (E := Unit)
    { set_power := fun _ => .ok (), transmit := fun _ => .ok (),
      receive := fun _ => .error .timeout }
    { rounds := 3, power := none, delay_us := 100, parse_info := false }
    = .ok (.ok ({ sent := 3, received := 0, local_rssi := [],
                  remote_rssi := [] }, 0)) := rfl

example : do_ping_pong (E := Unit)
    { set_power := fun _ => .ok (), transmit := fun _ => .ok (),
      receive := fun _ => .ok ([0, 0, 0], -40) }
    { rounds := 1, power := none, delay_us := 100, parse_info := false }
    = .panicked "read_u32: slice shorter than 4 bytes" := rfl

/-- Options consumed by do_echo (EchoOptions in the source); blocking options
are again absorbed into the oracle events. -/
structure EchoOptions where
  continuous : Bool
  power : Option Int
  delay_us : Nat
  append_info : Bool
deriving DecidableEq, Repr

/-- Outcome of one poll iteration of the echo loop, as seen through the radio
calls it makes: check_receive found nothing, check_receive failed, or a frame
arrived, in which case the event carries the get_received result (delivered
bytes plus the info RSSI, or a device error) and the result of the do_transmit
issued for the response. -/
inductive EchoEvent (E : Type) where
  | idle : EchoEvent E
  | checkErr : E → EchoEvent E
  | frame : Except E (List Nat × Int) → Except (BlockingError E) Unit → EchoEvent E

/-- Result of running the echo executor over a finite event list. -/
inductive EchoOutcome (E : Type) where
  | ok : Nat → EchoOutcome E
  | err : BlockingError E → EchoOutcome E
  | panicked : String → EchoOutcome E
  | outOfEvents : EchoOutcome E

/-- Hardware oracle for one echo run: power and start_receive outcomes plus
the per-iteration poll events. -/
structure EchoOracle (E : Type) where
  set_power : Int → Except E Unit
  start_receive : Except E Unit
  events : List (EchoEvent E)

/-- Frame-processing stage of the echo loop (source lines 351-366):
get_received overwrites the buffer prefix with the delivered bytes; with
append_info set the received RSSI is written big-endian at offset n —
byteorder write_i16 panics when fewer than 2 bytes of the buffer remain (the
source has no capacity check) — and the length grows by 2. Yields the updated
buffer and response length. -/
def echoFrameStep (opts : EchoOptions) (buff bytes : List Nat) (rssi : Int) :
    PanicOr (List Nat × Nat) :=
  let n := bytes.length
  let buff1 := writeAt buff 0 bytes
  if opts.append_info then
    (if buff1.length - n < 2 then
       .panicked "write_i16: slice shorter than 2 bytes"
     else .ok (writeAt buff1 n (i16_bytes rssi), n + 2))
  else .ok (buff1, n)

/-- Receive-and-respond loop of do_echo (source lines 348-382), threading the
reusable byte buffer and the list of payloads passed to do_transmit. On a
frame: run the frame-processing stage, then after the turnaround delay the
first n bytes of the buffer are retransmitted, and a non-continuous run
returns n. -/
def do_echo_loop {E : Type} (opts : EchoOptions) :
    List (EchoEvent E) → List Nat → List (List Nat) →
    EchoOutcome E × List (List Nat)
  | [], _, sent => (.outOfEvents, sent)
  | .idle :: rest, buff, sent => do_echo_loop opts rest buff sent
  | .checkErr e :: _, _, sent => (.err (.inner e), sent)
  | .frame res txRes :: rest, buff, sent =>
    match res with
    | .error e => (.err (.inner e), sent)
    | .ok (bytes, rssi) =>
      match echoFrameStep opts buff bytes rssi with
      | .panicked m => (.panicked m, sent)
      | .ok (buff2, n2) =>
        let sent2 := sent ++ [buff2.take n2]
        match txRes with
        | .error e => (.err e, sent2)
        | .ok _ =>
          if opts.continuous then do_echo_loop opts rest buff2 sent2
          else (.ok n2, sent2)

/-- Embedding of do_echo (source lines 330-383): apply output power when
given, enter receive mode, then run the poll loop; the second component is
the list of payloads handed to do_transmit, in order. -/
def do_echo {E : Type} (io : EchoOracle E) (opts : EchoOptions) (buff : List Nat) :
    EchoOutcome E × List (List Nat) :=
  match (match opts.power with
         | some p => io.set_power p
         | none => .ok ()) with
  | .error e => (.err (.inner e), [])
  | .ok _ =>
    match io.start_receive with
    | .error e => (.err (.inner e), [])
    | .ok _ => do_echo_loop opts io.events buff []

example : do_echo (E := Unit)
    { set_power := fun _ => .ok (), start_receive := .ok (),
      events := [.idle, .frame (.ok ([1, 2, 3], -40)) (.ok ())] }
    { continuous := false, power := none, delay_us := 100, append_info := false }
    [0, 0, 0, 0, 0, 0, 0, 0]
    = (.ok 3, [[1, 2, 3]]) := rfl

example : do_echo (E := Unit)
    { set_power := fun _ => .ok (), start_receive := .ok (),
      events := [.frame (.ok ([1, 2, 3], -40)) (.ok ())] }
    { continuous := false, power := none, delay_us := 100, append_info := true }
    [0, 0, 0, 0, 0, 0, 0, 0]
    = (.ok 5, [[1, 2, 3, 255, 216]]) := rfl

example : do_echo (E := Unit)
    { set_power := fun _ => .ok (), start_receive := .ok (),
      events := [.frame (.ok ([1, 2, 3], -40)) (.ok ())] }
    { continuous := false, power := none, delay_us := 100, append_info := true }
    [0, 0, 0, 0]
    = (.panicked "write_i16: slice shorter than 2 bytes", []) := rfl

/-- Capture-sink options (PcapOptions in the source): an output capture file
path or a named-pipe path, mutually exclusive by the CLI group. -/
structure PcapOptions where
  pcap_file : Option String
  pcap_pipe : Option String
deriving DecidableEq, Repr

/-- Filesystem environment the capture-sink open path runs against: result of
File::create, the status returned by mkfifo, whether opening the created pipe
for writing succeeds, and whether writing the pcap header succeeds. -/
structure FsEnv where
  createFile : Except IoError Unit
  mkfifoStatus : Int
  pipeOpen : Bool
  headerWrite : Bool

/-- Embedding of PcapOptions::open (source lines 156-213). File path: a
File::create failure is returned as a typed Err by the question-mark operator.
Pipe path: a nonzero mkfifo status hits the explicit panic, and a pipe-open
failure hits an expect. Either way, writing the pcap header goes through an
expect that panics on failure. The Bool in the result records whether a
writer was produced. -/
def PcapOptions.open (o : PcapOptions) (env : FsEnv) :
    PanicOr (Except IoError Bool) :=
  match o.pcap_file, o.pcap_pipe with
  | some _, none =>
    match env.createFile with
    | .error e => .ok (.error e)
    | .ok _ =>
      if env.headerWrite then .ok (.ok true)
      else .panicked "Error writing to PCAP file"
  | none, some _ =>
    if env.mkfifoStatus ≠ 0 then .panicked "Error creating fifo"
    else if env.pipeOpen then
      (if env.headerWrite then .ok (.ok true)
       else .panicked "Error writing to PCAP file")
    else .panicked "Error opening PCAP pipe"
  | none, none => .ok (.ok false)
  | some _, some _ => .panicked "unimplemented"

/-- Options consumed by do_receive (ReceiveOptions in the source). -/
structure ReceiveOptions where
  continuous : Bool
  pcap_options : PcapOptions
deriving DecidableEq, Repr

/-- Calls the receive executor issues into the radio hardware. -/
inductive HwCall where
  | startReceive : HwCall
  | checkReceive : HwCall
  | getReceived : HwCall
  | delayPoll : HwCall
deriving DecidableEq, Repr

/-- Outcome of one poll iteration of the receive loop: nothing pending, a
failed check, or a delivered frame carrying the get_received result, whether
the pcap write (if any) succeeds, and the result of the re-entering
start_receive used in continuous mode. -/
inductive RcvEvent (E : Type) where
  | idle : RcvEvent E
  | checkErr : E → RcvEvent E
  | frame : Except E (List Nat × Int) → Bool → Except E Unit → RcvEvent E

/-- Result of running the receive executor over a finite event list. -/
inductive RcvOutcome (E : Type) where
  | ok : Nat → RcvOutcome E
  | err : E → RcvOutcome E
  | panicked : String → RcvOutcome E
  | outOfEvents : RcvOutcome E
deriving DecidableEq, Repr

/-- Poll loop of do_receive (source lines 236-265), accumulating the trace of
hardware calls. Each iteration checks for a frame; a delivered frame is
fetched, logged, written to the capture sink when one is configured (a write
failure panics through an expect), then a non-continuous run returns the
received length, while a continuous run re-enters receive mode; every
iteration ends with the poll-interval delay. -/
def do_receive_loop {E : Type} (continuous : Bool) (pcap : Bool) :
    List (RcvEvent E) → List HwCall → RcvOutcome E × List HwCall
  | [], trace => (.outOfEvents, trace)
  | .idle :: rest, trace =>
    do_receive_loop continuous pcap rest (trace ++ [.checkReceive, .delayPoll])
  | .checkErr e :: _, trace => (.err e, trace ++ [.checkReceive])
  | .frame res pcapOk restart :: rest, trace =>
    let t1 := trace ++ [.checkReceive, .getReceived]
    match res with
    | .error e => (.err e, t1)
    | .ok (bytes, _) =>
      let n := bytes.length
      if pcap && !pcapOk then (.panicked "Error writing pcap file", t1)
      else if continuous then
        match restart with
        | .error e => (.err e, t1 ++ [.startReceive])
        | .ok _ =>
          do_receive_loop continuous pcap rest (t1 ++ [.startReceive, .delayPoll])
      else (.ok n, t1)

/-- Embedding of do_receive (source lines 217-266): open the capture sink —
an expect turns a typed open error into a panic — then enter receive mode and
run the poll loop. The trace lists the radio hardware calls in order. -/
def do_receive {E : Type} (env : FsEnv) (opts : ReceiveOptions)
    (startRes : Except E Unit) (evs : List (RcvEvent E)) :
    RcvOutcome E × List HwCall :=
  match opts.pcap_options.open env with
  | .panicked m => (.panicked m, [])
  | .ok (.error _) => (.panicked "Error opening pcap file / pipe", [])
  | .ok (.ok pcap) =>
    match startRes with
    | .error e => (.err e, [.startReceive])
    | .ok _ => do_receive_loop opts.continuous pcap evs [.startReceive]

example : do_receive (E := Unit)
    { createFile := .ok (), mkfifoStatus := 0, pipeOpen := true, headerWrite := true }
    { continuous := false, pcap_options := { pcap_file := none, pcap_pipe := none } }
    (.ok ()) [.idle, .frame (.ok ([5, 6], -30)) true (.ok ())]
    = (.ok 2, [.startReceive, .checkReceive, .delayPoll, .checkReceive,
               .getReceived]) := rfl

example : PcapOptions.open
    { pcap_file := none, pcap_pipe := some "wireshark.pipe" }
    { createFile := .ok (), mkfifoStatus := -1, pipeOpen := true, headerWrite := true }
    = .panicked "Error creating fifo" := rfl

/-- Classification of the non-aborting outcomes of one link-test round: a
round either contributes nothing and skips the delay (the two continue paths),
or it delays and contributes exactly one received count, one local-RSSI sample,
and one remote-RSSI sample exactly when parse_info is set. -/
lemma ppStep_next_cases {E : Type} (o : PPOracle E) (opts : PingPongOptions)
    (i : Nat) (st st' : LinkTestInfo) (b : Bool)
    (h : ppStep o opts i st = .next st' b) :
    (st' = st ∧ b = false) ∨
    (b = true ∧ st'.sent = st.sent ∧ st'.received = st.received + 1 ∧
     (∃ x, st'.local_rssi = st.local_rssi ++ [x]) ∧
     ((opts.parse_info = true ∧ ∃ y, st'.remote_rssi = st.remote_rssi ++ [y]) ∨
      (opts.parse_info = false ∧ st'.remote_rssi = st.remote_rssi))) := by
  unfold ppStep at h
  split at h
  · exact absurd h (by simp)
  · split at h
    · injection h with h1 h2; exact Or.inl ⟨h1.symm, h2.symm⟩
    · exact absurd h (by simp)
    · split at h
      · exact absurd h (by simp)
      · split at h
        · injection h with h1 h2; exact Or.inl ⟨h1.symm, h2.symm⟩
        · split at h
          · exact absurd h (by simp)
          · rename_i bytes rssi hrecv xu ridx hread hnne xp remote hparse
            injection h with h1 h2
            subst h1
            subst h2
            refine Or.inr ⟨rfl, rfl, rfl, ⟨rssi, rfl⟩, ?_⟩
            by_cases hp : opts.parse_info
            · rw [if_pos hp] at hparse
              cases h16 : read_i16 (List.drop 4 bytes) with
              | panicked m =>
                rw [h16] at hparse
                exact absurd hparse (by simp [PanicOr.map])
              | ok y =>
                rw [h16] at hparse
                simp only [PanicOr.map] at hparse
                injection hparse with h3
                exact Or.inl ⟨hp, y, by rw [← h3]⟩
            · rw [if_neg hp] at hparse
              injection hparse with h3
              refine Or.inr ⟨by simpa using hp, ?_⟩
              rw [← h3]
              simp

/-- Invariant carried by the link-test round loop whenever it finishes all
rounds: the sent field is never touched, the ghost delay count and the
local-RSSI sample count each grow in lockstep with the received count, and
the remote-RSSI sample count grows with received exactly when parse_info is
set and not at all otherwise. -/
lemma ppLoop_ok_invariant {E : Type} (o : PPOracle E) (opts : PingPongOptions) :
    ∀ (r i : Nat) (st : LinkTestInfo) (d : Nat) (info : LinkTestInfo) (dF : Nat),
      ppLoop o opts i r st d = .ok (.ok (info, dF)) →
      info.sent = st.sent ∧
      dF + st.received = d + info.received ∧
      info.local_rssi.length + st.received
        = st.local_rssi.length + info.received ∧
      (opts.parse_info = true →
        info.remote_rssi.length + st.received
          = st.remote_rssi.length + info.received) ∧
      (opts.parse_info = false →
        info.remote_rssi.length = st.remote_rssi.length) := by
  intro r
  induction r with
  | zero =>
    intro i st d info dF h
    unfold ppLoop at h
    injection h with h1
    injection h1 with h2
    injection h2 with h3 h4
    subst h3; subst h4
    simp
  | succ r ih =>
    intro i st d info dF h
    unfold ppLoop at h
    cases hs : ppStep o opts i st with
    | abort e => rw [hs] at h; exact absurd h (by simp)
    | panicked m => rw [hs] at h; exact absurd h (by simp)
    | next st' b =>
      rw [hs] at h
      have inv := ih (i + 1) st' (d + (if b then 1 else 0)) info dF h
      rcases ppStep_next_cases o opts i st st' b hs with
        ⟨hst, hb⟩ | ⟨hb, hsent, hrecv, ⟨x, hloc⟩, hrem⟩
      · subst hst; subst hb; simpa using inv
      · subst hb
        obtain ⟨i1, i2, i3, i4, i5⟩ := inv
        have i2' : dF + st'.received = (d + 1) + info.received := by
          simpa using i2
        refine ⟨by rw [i1, hsent], by omega, ?_, ?_, ?_⟩
        · have hl : st'.local_rssi.length = st.local_rssi.length + 1 := by
            rw [hloc]; simp
          omega
        · intro hp
          rcases hrem with ⟨_, y, hy⟩ | ⟨hpf, _⟩
          · have hrl : st'.remote_rssi.length = st.remote_rssi.length + 1 := by
              rw [hy]; simp
            have := i4 hp
            omega
          · rw [hpf] at hp; exact absurd hp (by simp)
        · intro hp
          rcases hrem with ⟨hpt, _, _⟩ | ⟨_, hy⟩
          · rw [hpt] at hp; exact absurd hp (by simp)
          · rw [i5 hp, hy]

/-- Elimination of a completed instrumented run down to its round loop: when
the run returns a summary the power stage succeeded and the loop ran from the
initial summary whose sent field is the requested round count. -/
lemma ppRun_ok_elim {E : Type} (o : PPOracle E) (opts : PingPongOptions)
    (info : LinkTestInfo) (d : Nat) (h : ppRun o opts = .ok (.ok (info, d))) :
    ppLoop o opts 0 opts.rounds
      { sent := opts.rounds, received := 0, local_rssi := [],
        remote_rssi := [] } 0 = .ok (.ok (info, d)) := by
  unfold ppRun at h
  split at h
  · split at h
    · exact absurd h (by simp)
    · exact h
  · exact h

/-- Elimination of a returned summary of do_ping_pong to the instrumented run
it projects. -/
lemma do_ping_pong_ok_elim {E : Type} (o : PPOracle E) (opts : PingPongOptions)
    (info : LinkTestInfo) (h : do_ping_pong o opts = .ok (.ok info)) :
    ∃ d, ppRun o opts = .ok (.ok (info, d)) := by
  unfold do_ping_pong at h
  cases hr : ppRun o opts with
  | panicked m => rw [hr] at h; exact absurd h (by simp [PanicOr.map])
  | ok x =>
    cases x with
    | error e =>
      rw [hr] at h
      exact absurd h (by simp [PanicOr.map, Except.map])
    | ok pr =>
      obtain ⟨st, d⟩ := pr
      rw [hr] at h
      simp only [PanicOr.map, Except.map] at h
      injection h with h1
      injection h1 with h2
      subst h2
      exact ⟨d, rfl⟩

/-- Oracle for a peer that never responds: every blocking receive times out. -/
def silentPeer : PPOracle Unit :=
  { set_power := fun _ => .ok (), transmit := fun _ => .ok (),
    receive := fun _ => .error .timeout }

/-- Oracle for a fully cooperative peer echoing the round index with local
RSSI -40 and no appended info. -/
def perfectPeer : PPOracle Unit :=
  { set_power := fun _ => .ok (), transmit := fun _ => .ok (),
    receive := fun i => .ok ([0, 0, 0, i], -40) }

/-- Single-round link-test options without info parsing. -/
def oneRound : PingPongOptions :=
  { rounds := 1, power := none, delay_us := 100000, parse_info := false }

/-- Three-round link-test options without info parsing. -/
def threeRounds : PingPongOptions :=
  { rounds := 3, power := none, delay_us := 100000, parse_info := false }

/-- C1 is false on the code: with one round whose response times out, the
run completes having performed zero inter-round delays although the claim
requires the delay to be performed for every round in 0..rounds regardless
of timeout; the continue path jumps past the delay at the end of the loop
body. -/
theorem ping_pong_timeout_skips_delay_cex :
    ppRun silentPeer oneRound
      = .ok (.ok ({ sent := 1, received := 0, local_rssi := [],
                    remote_rssi := [] }, 0)) ∧
    (0 : Nat) ≠ oneRound.rounds := ⟨rfl, by decide⟩

/-- C1 (amended): the inter-round delay is performed exactly once per round
that completes successfully with a matching echoed index — the rounds counted
by received — while timed-out and mismatched rounds continue to the next
round without the delay; so in any completed run the number of inter-round
delay calls equals the received count. -/
theorem ping_pong_delay_count_eq_received {E : Type} (o : PPOracle E)
    (opts : PingPongOptions) (info : LinkTestInfo) (d : Nat)
    (h : ppRun o opts = .ok (.ok (info, d))) : d = info.received := by
  have hl := ppLoop_ok_invariant o opts opts.rounds 0 _ 0 info d
    (ppRun_ok_elim o opts info d h)
  simpa using hl.2.1

/-- Witness for the amended C1 at a concrete cooperative run. -/
theorem ping_pong_delay_count_eq_received_witness :
    (1 : Nat) = ({ sent := 1, received := 1, local_rssi := [-40],
                   remote_rssi := [] } : LinkTestInfo).received :=
  ping_pong_delay_count_eq_received perfectPeer oneRound
    { sent := 1, received := 1, local_rssi := [-40], remote_rssi := [] } 1 rfl

/-- Oracle delivering a 3-byte response: too short to decode the echoed
index. -/
def shortPeer : PPOracle Unit :=
  { set_power := fun _ => .ok (), transmit := fun _ => .ok (),
    receive := fun _ => .ok ([0, 0, 0], -40) }

/-- Oracle delivering an exactly-4-byte response with a matching index, too
short for the 2-byte remote RSSI expected when parse_info is set. -/
def noInfoPeer : PPOracle Unit :=
  { set_power := fun _ => .ok (), transmit := fun _ => .ok (),
    receive := fun _ => .ok ([0, 0, 0, 0], -40) }

/-- Single-round link-test options with info parsing enabled. -/
def parseOneRound : PingPongOptions :=
  { rounds := 1, power := none, delay_us := 100000, parse_info := true }

/-- C2 is violated by the code: a response shorter than 4 bytes panics in
byteorder read_u32, and with parse_info set a matching response shorter than
6 bytes panics in read_i16; neither is handled as a skipped round. -/
theorem ping_pong_short_response_panics :
    do_ping_pong shortPeer oneRound
      = .panicked "read_u32: slice shorter than 4 bytes" ∧
    do_ping_pong noInfoPeer parseOneRound
      = .panicked "read_i16: slice shorter than 2 bytes" := ⟨rfl, rfl⟩

/-- C4: whenever do_ping_pong returns a summary, its sent field equals the
requested round count independently of how many rounds timed out, were
dropped, or succeeded: the field is initialised to options.rounds and never
written afterwards. -/
theorem ping_pong_sent_eq_rounds {E : Type} (o : PPOracle E)
    (opts : PingPongOptions) (info : LinkTestInfo)
    (h : do_ping_pong o opts = .ok (.ok info)) : info.sent = opts.rounds := by
  obtain ⟨d, hd⟩ := do_ping_pong_ok_elim o opts info h
  have hl := ppLoop_ok_invariant o opts opts.rounds 0 _ 0 info d
    (ppRun_ok_elim o opts info d hd)
  simpa using hl.1

/-- Witness for C4 at a run of three rounds that all time out. -/
theorem ping_pong_sent_eq_rounds_witness :
    ({ sent := 3, received := 0, local_rssi := [], remote_rssi := [] }
      : LinkTestInfo).sent = threeRounds.rounds :=
  ping_pong_sent_eq_rounds silentPeer threeRounds
    { sent := 3, received := 0, local_rssi := [], remote_rssi := [] } rfl

/-- C5: a round whose decoded echoed index differs from the sent index i
contributes nothing: from any accumulated state the step leaves the whole
summary unchanged — received not incremented, neither RSSI accumulator
updated — and takes the continue path, skipping the delay; since the step
only reads the current state, every other round is unaffected. -/
theorem ping_pong_mismatch_drops_round {E : Type} (o : PPOracle E)
    (opts : PingPongOptions) (i : Nat) (st : LinkTestInfo)
    (bytes : List Nat) (rssi : Int) (v : Nat)
    (htx : o.transmit i = .ok ())
    (hrx : o.receive i = .ok (bytes, rssi))
    (hread : read_u32 bytes = .ok v)
    (hne : v ≠ i) :
    ppStep o opts i st = .next st false := by
  simp only [ppStep, htx, hrx, hread]
  rw [if_pos hne]

/-- Oracle whose responses always echo index 7. -/
def mismatchPeer : PPOracle Unit :=
  { set_power := fun _ => .ok (), transmit := fun _ => .ok (),
    receive := fun _ => .ok ([0, 0, 0, 7], -40) }

/-- Witness for C5: a response echoing index 7 in round 1 leaves a nonempty
accumulated state untouched. -/
theorem ping_pong_mismatch_drops_round_witness :
    ppStep mismatchPeer oneRound 1
      { sent := 5, received := 2, local_rssi := [-41], remote_rssi := [-52] }
      = .next { sent := 5, received := 2, local_rssi := [-41],
                remote_rssi := [-52] } false :=
  ping_pong_mismatch_drops_round mismatchPeer oneRound 1
    { sent := 5, received := 2, local_rssi := [-41], remote_rssi := [-52] }
    [0, 0, 0, 7] (-40) 7 rfl rfl rfl (by decide)

/-- C9: in any returned summary, the local-RSSI accumulator was updated
exactly received times, and the remote-RSSI accumulator exactly received
times when parse_info is set and zero times otherwise. -/
theorem ping_pong_stats_update_counts {E : Type} (o : PPOracle E)
    (opts : PingPongOptions) (info : LinkTestInfo)
    (h : do_ping_pong o opts = .ok (.ok info)) :
    info.local_rssi.length = info.received ∧
    info.remote_rssi.length
      = (if opts.parse_info then info.received else 0) := by
  obtain ⟨d, hd⟩ := do_ping_pong_ok_elim o opts info h
  have hl := ppLoop_ok_invariant o opts opts.rounds 0 _ 0 info d
    (ppRun_ok_elim o opts info d hd)
  obtain ⟨-, -, i3, i4, i5⟩ := hl
  constructor
  · simpa using i3
  · by_cases hp : opts.parse_info
    · rw [if_pos hp]; simpa using i4 hp
    · rw [if_neg hp]; simpa using i5 (by simpa using hp)

/-- Oracle of a cooperative peer echoing the index with remote RSSI -50
appended big-endian. -/
def infoPeer : PPOracle Unit :=
  { set_power := fun _ => .ok (), transmit := fun _ => .ok (),
    receive := fun i => .ok ([0, 0, 0, i, 255, 206], -40) }

/-- Two-round link-test options with info parsing enabled. -/
def parseTwoRounds : PingPongOptions :=
  { rounds := 2, power := none, delay_us := 100000, parse_info := true }

/-- Witness for C9 at a concrete two-round run with info parsing. -/
theorem ping_pong_stats_update_counts_witness :
    ({ sent := 2, received := 2, local_rssi := [-40, -40],
       remote_rssi := [-50, -50] } : LinkTestInfo).local_rssi.length
      = ({ sent := 2, received := 2, local_rssi := [-40, -40],
           remote_rssi := [-50, -50] } : LinkTestInfo).received ∧
    ({ sent := 2, received := 2, local_rssi := [-40, -40],
       remote_rssi := [-50, -50] } : LinkTestInfo).remote_rssi.length
      = (if parseTwoRounds.parse_info
         then ({ sent := 2, received := 2, local_rssi := [-40, -40],
                 remote_rssi := [-50, -50] } : LinkTestInfo).received
         else 0) :=
  ping_pong_stats_update_counts infoPeer parseTwoRounds
    { sent := 2, received := 2, local_rssi := [-40, -40],
      remote_rssi := [-50, -50] } rfl

/-- C10: a device error — any blocking error other than timeout — in the
initial power set or in any round's transmit or receive makes do_ping_pong
return exactly that error; the round loop, started from any partially
accumulated state, returns only the error value, so the partial summary is
discarded and never reaches the caller. -/
theorem ping_pong_device_error_aborts {E : Type} :
    (∀ (o : PPOracle E) (opts : PingPongOptions) (p : Int) (e : E),
       opts.power = some p → o.set_power p = .error e →
       do_ping_pong o opts = .ok (.error (.inner e))) ∧
    (∀ (o : PPOracle E) (opts : PingPongOptions) (i r : Nat)
       (st : LinkTestInfo) (d : Nat) (e : E),
       (o.transmit i = .error (.inner e) ∨
        (o.transmit i = .ok () ∧ o.receive i = .error (.inner e))) →
       ppLoop o opts i (r + 1) st d = .ok (.error (.inner e))) := by
  constructor
  · intro o opts p e hp hsp
    simp [do_ping_pong, ppRun, hp, hsp, PanicOr.map, Except.map]
  · intro o opts i r st d e hdev
    have hs : ppStep o opts i st = .abort (.inner e) := by
      rcases hdev with htx | ⟨htx, hrx⟩
      · simp [ppStep, htx]
      · simp [ppStep, htx, hrx]
    simp [ppLoop, hs]

/-- Radio whose power stage fails with a device error. -/
def badPowerRadio : PPOracle Unit :=
  { set_power := fun _ => .error (), transmit := fun _ => .ok (),
    receive := fun _ => .error .timeout }

/-- Link-test options requesting output power 10 dBm. -/
def poweredOpts : PingPongOptions :=
  { rounds := 2, power := some 10, delay_us := 100000, parse_info := false }

/-- Radio whose receive fails with a device error in every round. -/
def faultyPeer : PPOracle Unit :=
  { set_power := fun _ => .ok (), transmit := fun _ => .ok (),
    receive := fun _ => .error (.inner ()) }

/-- Witness for C10: a failing power set aborts the whole test, and a
receive device error after four accumulated rounds returns only the error. -/
theorem ping_pong_device_error_aborts_witness :
    do_ping_pong badPowerRadio poweredOpts = .ok (.error (.inner ())) ∧
    ppLoop faultyPeer oneRound 0 1
      { sent := 9, received := 4, local_rssi := [-41, -42, -43, -44],
        remote_rssi := [] } 4 = .ok (.error (.inner ())) :=
  ⟨(ping_pong_device_error_aborts (E := Unit)).1 badPowerRadio poweredOpts
      10 () rfl rfl,
   (ping_pong_device_error_aborts (E := Unit)).2 faultyPeer oneRound 0 0
      { sent := 9, received := 4, local_rssi := [-41, -42, -43, -44],
        remote_rssi := [] } 4 () (Or.inr ⟨rfl, rfl⟩)⟩

/-- Decoding the two bytes written for an i16 value recovers that value. -/
lemma read_i16_i16_bytes (r : Int) (hlo : -32768 ≤ r) (hhi : r < 32768) :
    read_i16 (i16_bytes r) = .ok r := by
  have h0 : (0 : Int) ≤ r % 65536 := Int.emod_nonneg r (by norm_num)
  have h1 : r % 65536 < 65536 := Int.emod_lt_of_pos r (by norm_num)
  have hw : (r % 65536).toNat / 256 * 256 + (r % 65536).toNat % 256
      = (r % 65536).toNat := by omega
  have hred : read_i16 (i16_bytes r)
      = .ok (if (r % 65536).toNat / 256 * 256 + (r % 65536).toNat % 256 < 32768
             then (((r % 65536).toNat / 256 * 256
                    + (r % 65536).toNat % 256 : Nat) : Int)
             else (((r % 65536).toNat / 256 * 256
                    + (r % 65536).toNat % 256 : Nat) : Int) - 65536) := rfl
  rw [hred, hw]
  congr 1
  split
  · omega
  · omega

/-- Writing the received bytes at the start of the buffer and truncating to
their length yields the received bytes back. -/
lemma writeAt_zero_take (buff bytes : List Nat) :
    (writeAt buff 0 bytes).take bytes.length = bytes := by
  show (List.take 0 buff ++ bytes
        ++ List.drop (0 + bytes.length) buff).take bytes.length = bytes
  rw [List.take_zero, List.nil_append]
  exact List.take_left bytes _

/-- Appending the RSSI encoding at offset n and truncating to n + 2 yields
the received bytes followed by the 2-byte encoding. -/
lemma writeAt_append_take (buff bytes : List Nat) (r : Int) :
    (writeAt (writeAt buff 0 bytes) bytes.length (i16_bytes r)).take
        (bytes.length + 2) = bytes ++ i16_bytes r := by
  have henc : (i16_bytes r).length = 2 := rfl
  have h1 : writeAt (writeAt buff 0 bytes) bytes.length (i16_bytes r)
      = (bytes ++ i16_bytes r)
        ++ (writeAt buff 0 bytes).drop (bytes.length + 2) := by
    show (writeAt buff 0 bytes).take bytes.length ++ i16_bytes r
        ++ (writeAt buff 0 bytes).drop (bytes.length + (i16_bytes r).length)
        = _
    rw [writeAt_zero_take, henc, List.append_assoc]
  rw [h1]
  refine List.take_left' ?_
  simp [henc]

/-- Without append_info the frame stage returns the overwritten buffer and
the received length unchanged. -/
lemma echoFrameStep_no_append (opts : EchoOptions) (buff bytes : List Nat)
    (r : Int) (h : opts.append_info = false) :
    echoFrameStep opts buff bytes r = .ok (writeAt buff 0 bytes, bytes.length) := by
  unfold echoFrameStep
  rw [h]
  simp

/-- With append_info set and at least 2 spare bytes beyond the received
length, the frame stage writes the RSSI encoding and grows the length by 2. -/
lemma echoFrameStep_append (opts : EchoOptions) (buff bytes : List Nat)
    (r : Int) (h : opts.append_info = true)
    (hcap : bytes.length + 2 ≤ buff.length) :
    echoFrameStep opts buff bytes r
      = .ok (writeAt (writeAt buff 0 bytes) bytes.length (i16_bytes r),
             bytes.length + 2) := by
  unfold echoFrameStep
  rw [h]
  dsimp only
  have hlen1 : (writeAt buff 0 bytes).length = buff.length := by
    simp [writeAt]
    omega
  have hcond : ¬((writeAt buff 0 bytes).length - bytes.length < 2) := by
    rw [hlen1]
    omega
  rw [if_neg hcond]
  simp

/-- The payload transmitted for a single delivered frame is the truncation of
the frame stage's buffer to the frame stage's length, whatever the transmit
result and continuity flag. -/
lemma do_echo_loop_single_frame {E : Type} (opts : EchoOptions)
    (bytes : List Nat) (r : Int) (txRes : Except (BlockingError E) Unit)
    (buff buff2 : List Nat) (n2 : Nat)
    (hstep : echoFrameStep opts buff bytes r = .ok (buff2, n2)) :
    (do_echo_loop opts [.frame (.ok (bytes, r)) txRes] buff []).snd
      = [buff2.take n2] := by
  simp only [do_echo_loop]
  rw [hstep]
  cases txRes with
  | error e => simp
  | ok u =>
    cases hc : opts.continuous with
    | true => simp [hc, do_echo_loop]
    | false => simp [hc]

/-- Echo options with info appending, non-continuous. -/
def appendOpts : EchoOptions :=
  { continuous := false, power := none, delay_us := 100000,
    append_info := true }

/-- Echo oracle delivering a single frame that fills all but one byte of the
1024-byte buffer used by do_operation. -/
def nearFullEcho : EchoOracle Unit :=
  { set_power := fun _ => .ok (), start_receive := .ok (),
    events := [.frame (.ok (List.replicate 1023 7, -40)) (.ok ())] }

/-- With append_info set, a received length leaving fewer than 2 spare bytes
in the buffer hits the byteorder write_i16 length assertion. -/
lemma echoFrameStep_overflow (opts : EchoOptions) (buff bytes : List Nat)
    (r : Int) (h : opts.append_info = true)
    (hle : bytes.length ≤ buff.length)
    (hcap : buff.length - bytes.length < 2) :
    echoFrameStep opts buff bytes r
      = .panicked "write_i16: slice shorter than 2 bytes" := by
  unfold echoFrameStep
  rw [h]
  dsimp only
  have hlen1 : (writeAt buff 0 bytes).length = buff.length := by
    simp [writeAt]
    omega
  have hcond : (writeAt buff 0 bytes).length - bytes.length < 2 := by
    rw [hlen1]
    omega
  rw [if_pos hcond]
  simp

/-- C3 is violated by the code: with append_info set and a received frame of
length 1023 in the 1024-byte buffer (one byte of spare capacity, fewer than
the 2 required), there is no explicit capacity check — the RSSI bytes are
written through byteorder write_i16 into a 1-byte slice, which panics, and
nothing is transmitted. -/
theorem echo_append_without_capacity_panics :
    do_echo nearFullEcho appendOpts (List.replicate 1024 0)
      = (.panicked "write_i16: slice shorter than 2 bytes", []) := by
  have hstep : echoFrameStep appendOpts (List.replicate 1024 0)
      (List.replicate 1023 7) (-40)
      = .panicked "write_i16: slice shorter than 2 bytes" :=
    echoFrameStep_overflow appendOpts (List.replicate 1024 0)
      (List.replicate 1023 7) (-40) rfl
      (by rw [List.length_replicate, List.length_replicate]; omega)
      (by rw [List.length_replicate, List.length_replicate]; omega)
  have hde : do_echo nearFullEcho appendOpts (List.replicate 1024 0)
      = do_echo_loop appendOpts
          [.frame (.ok (List.replicate 1023 7, -40)) (.ok ())]
          (List.replicate 1024 0) [] := rfl
  rw [hde]
  simp only [do_echo_loop]
  rw [hstep]

/-- Echo oracle delivering a single 3-byte frame with RSSI -40. -/
def smallFrameEcho : EchoOracle Unit :=
  { set_power := fun _ => .ok (), start_receive := .ok (),
    events := [.frame (.ok ([1, 2, 3], -40)) (.ok ())] }

/-- C6 is false as stated at the buffer boundary: with append_info set, a
3-byte payload received into a 4-byte buffer produces a panic and no
retransmission at all, rather than the payload followed by the 2-byte RSSI
encoding. -/
theorem echo_retransmission_cex :
    do_echo smallFrameEcho appendOpts [0, 0, 0, 0]
      = (.panicked "write_i16: slice shorter than 2 bytes", []) ∧
    ([] : List (List Nat)) ≠ [[1, 2, 3] ++ i16_bytes (-40)] := ⟨rfl, by decide⟩

/-- C6 (amended): for every received payload the retransmitted byte sequence
equals the payload exactly when append_info is unset; when append_info is set
and the buffer keeps at least 2 spare bytes beyond the received length, it
equals the payload followed by exactly the 2-byte big-endian signed 16-bit
encoding of the receiving side's RSSI (decoding those two bytes returns the
RSSI value); at the boundary without spare capacity the code panics with no
retransmission instead. -/
theorem echo_retransmission_exact {E : Type} (sp : Int → Except E Unit)
    (bytes buff : List Nat) (r : Int) (txRes : Except (BlockingError E) Unit)
    (cont app : Bool) (du : Nat)
    (hcap : app = true → bytes.length + 2 ≤ buff.length)
    (hlo : -32768 ≤ r) (hhi : r < 32768) :
    (do_echo { set_power := sp, start_receive := .ok (),
               events := [.frame (.ok (bytes, r)) txRes] }
       { continuous := cont, power := none, delay_us := du,
         append_info := app }
       buff).snd
      = [if app then bytes ++ i16_bytes r else bytes] ∧
    read_i16 (i16_bytes r) = .ok r := by
  refine ⟨?_, read_i16_i16_bytes r hlo hhi⟩
  have hde : do_echo (E := E)
      { set_power := sp, start_receive := .ok (),
        events := [.frame (.ok (bytes, r)) txRes] }
      { continuous := cont, power := none, delay_us := du,
        append_info := app } buff
      = do_echo_loop
          { continuous := cont, power := none, delay_us := du,
            append_info := app }
          [.frame (.ok (bytes, r)) txRes] buff [] := rfl
  rw [hde]
  cases app with
  | false =>
    rw [do_echo_loop_single_frame _ bytes r txRes buff _ _
      (echoFrameStep_no_append _ buff bytes r rfl)]
    rw [writeAt_zero_take]
    simp
  | true =>
    rw [do_echo_loop_single_frame _ bytes r txRes buff _ _
      (echoFrameStep_append _ buff bytes r rfl (hcap rfl))]
    rw [writeAt_append_take]
    simp

/-- Witness for the amended C6: a 2-byte payload echoed from a 4-byte buffer
with append_info set is retransmitted as the payload plus the encoding of
RSSI -40, and that encoding decodes back to -40. -/
theorem echo_retransmission_exact_witness :
    (do_echo (E := Unit)
       { set_power := fun _ => .ok (), start_receive := .ok (),
         events := [.frame (.ok ([1, 2], -40)) (.ok ())] }
       { continuous := false, power := none, delay_us := 100000,
         append_info := true }
       [0, 0, 0, 0]).snd
      = [if true then [1, 2] ++ i16_bytes (-40) else [1, 2]] ∧
    read_i16 (i16_bytes (-40)) = .ok (-40) :=
  echo_retransmission_exact (fun _ => .ok ()) [1, 2] [0, 0, 0, 0] (-40)
    (.ok ()) false true 100000 (fun _ => by decide) (by decide) (by decide)

/-- Idle poll iterations each append a check-then-delay pair to the hardware
trace and leave the receive loop otherwise unchanged. -/
lemma do_receive_loop_skips_idles {E : Type} (c p : Bool) (k : Nat)
    (evs : List (RcvEvent E)) (trace : List HwCall) :
    do_receive_loop c p (List.replicate k .idle ++ evs) trace
      = do_receive_loop c p evs
          (trace
            ++ (List.replicate k [HwCall.checkReceive, HwCall.delayPoll]).flatten) := by
  induction k generalizing trace with
  | zero => simp
  | succ k ih =>
    rw [List.replicate_succ, List.cons_append]
    rw [show do_receive_loop c p
          (.idle :: (List.replicate k RcvEvent.idle ++ evs)) trace
        = do_receive_loop c p (List.replicate k RcvEvent.idle ++ evs)
            (trace ++ [HwCall.checkReceive, HwCall.delayPoll]) from rfl]
    rw [ih]
    congr 1
    rw [List.replicate_succ]
    simp [List.append_assoc]

/-- C7: with continuous unset, do_receive returns the received length after
exactly one delivered frame and issues no hardware call after that delivery:
for any number k of empty polls before the frame, the run returns the frame
length and its hardware trace is the initial receive start, k check-and-delay
pairs, one final check and one get-received call — the events after the frame
are never consumed. -/
theorem receive_single_frame_stops {E : Type} (env : FsEnv)
    (po : PcapOptions) (w : Bool) (hopen : po.open env = .ok (.ok w))
    (k : Nat) (bytes : List Nat) (r : Int) (restart : Except E Unit)
    (rest : List (RcvEvent E)) :
    do_receive env { continuous := false, pcap_options := po } (.ok ())
        (List.replicate k .idle ++ .frame (.ok (bytes, r)) true restart :: rest)
      = (.ok bytes.length,
         [HwCall.startReceive]
           ++ (List.replicate k [HwCall.checkReceive, HwCall.delayPoll]).flatten
           ++ [HwCall.checkReceive, HwCall.getReceived]) := by
  unfold do_receive
  dsimp only
  rw [hopen]
  dsimp only
  rw [do_receive_loop_skips_idles]
  simp only [do_receive_loop]
  simp [List.append_assoc]

/-- Witness for C7: one empty poll then a delivered 2-byte frame with no
capture sink configured. -/
theorem receive_single_frame_stops_witness :
    do_receive (E := Unit)
        { createFile := .ok (), mkfifoStatus := 0, pipeOpen := true,
          headerWrite := true }
        { continuous := false,
          pcap_options := { pcap_file := none, pcap_pipe := none } }
        (.ok ())
        (List.replicate 1 .idle
          ++ .frame (.ok (([5, 6] : List Nat), -30)) true (.ok ()) :: [])
      = (.ok ([5, 6] : List Nat).length,
         [HwCall.startReceive]
           ++ (List.replicate 1 [HwCall.checkReceive, HwCall.delayPoll]).flatten
           ++ [HwCall.checkReceive, HwCall.getReceived]) :=
  receive_single_frame_stops
    { createFile := .ok (), mkfifoStatus := 0, pipeOpen := true,
      headerWrite := true }
    { pcap_file := none, pcap_pipe := none } false rfl 1 [5, 6] (-30)
    (.ok ()) []

/-- C8 is violated by the code: every capture-sink open failure terminates
the process instead of surfacing a typed recoverable error — a failing
mkfifo hits the explicit panic, a failing pipe open panics through an expect,
a failed pcap header write panics through an expect, and even the typed Err
returned for a failed File::create is turned into a panic by the expect at
the call site in do_receive. -/
theorem capture_open_failure_terminates :
    PcapOptions.open { pcap_file := none, pcap_pipe := some "wireshark.pipe" }
        { createFile := .ok (), mkfifoStatus := -1, pipeOpen := true,
          headerWrite := true }
      = .panicked "Error creating fifo" ∧
    PcapOptions.open { pcap_file := none, pcap_pipe := some "wireshark.pipe" }
        { createFile := .ok (), mkfifoStatus := 0, pipeOpen := false,
          headerWrite := true }
      = .panicked "Error opening PCAP pipe" ∧
    PcapOptions.open { pcap_file := some "capture.pcap", pcap_pipe := none }
        { createFile := .ok (), mkfifoStatus := 0, pipeOpen := true,
          headerWrite := false }
      = .panicked "Error writing to PCAP file" ∧
    (do_receive (E := Unit)
        { createFile := .error { code := 13 }, mkfifoStatus := 0,
          pipeOpen := true, headerWrite := true }
        { continuous := false,
          pcap_options := { pcap_file := some "capture.pcap",
                            pcap_pipe := none } }
        (.ok ()) []).fst
      = .panicked "Error opening pcap file / pipe" :=
  ⟨rfl, rfl, rfl, rfl⟩
